import Mathlib

/-!
Shallow embedding of `cargo-cmd` (src/main.rs): a command runner that reads
`[package.metadata.commands]` / `[workspace.metadata.commands]` tables from a
Cargo.toml manifest, resolves a requested command name together with its
`pre<name>` / `post<name>` hooks, and executes the resulting command strings
as shell subprocesses in order.

External collaborators (file I/O, the TOML text parser, the OS process layer)
are modelled abstractly:
* a parsed manifest is a `List (String × TomlVal)` (the top-level TOML table);
  `none` in place of a table models text that the TOML parser rejects;
* a child process's termination is an `ExitStatus` (the `subprocess` crate's
  enum); the result of `Exec::shell(line).join()` is an
  `Option ExitStatus`, with `none` modelling an I/O error from spawn/join;
  the environment is a function `world : String → Option ExitStatus` giving
  the join result for each literal command line;
* `println!` output is modelled as the list of formatted strings printed.
-/

/-- The `subprocess` crate's `ExitStatus` enum. `Exited` carries a `u32`
(modelled as `Nat`), `Signaled` a `u8`, `Other` an `i32`. -/
inductive ExitStatus where
  | Exited (code : Nat)
  | Signaled (sig : Nat)
  | Other (v : Int)
  | Undetermined
deriving DecidableEq, Repr

/-- The crate's `ExitStatus::success`: true exactly for `Exited(0)`. -/
def ExitStatus.success : ExitStatus → Bool
  | ExitStatus.Exited 0 => true
  | _ => false

/-- A TOML value, as far as this program's schema can observe it: a string,
a table, or any other kind of value (integer, array, ...), which the serde
deserialization of `Cargotoml` always rejects where it expects a string or
a table. -/
inductive TomlVal where
  | str (s : String)
  | table (kvs : List (String × TomlVal))
  | other

/-- Rust struct `Metadata { commands: HashMap<String, String> }`; the hash
map is modelled as an association list (TOML tables have distinct keys). -/
structure Metadata where
  commands : List (String × String)

/-- Rust struct `WithMetadata { metadata: Metadata }`. -/
structure WithMetadata where
  metadata : Metadata

/-- Rust struct `Cargotoml { package: Option<WithMetadata>, workspace: Option<WithMetadata> }`. -/
structure Cargotoml where
  package : Option WithMetadata
  workspace : Option WithMetadata

/-- Serde deserialization of `HashMap<String, String>` from a TOML value:
the value must be a table all of whose values are strings. -/
def deserCommands : TomlVal → Option (List (String × String))
  | TomlVal.table kvs =>
      kvs.mapM (fun kv =>
        match kv.2 with
        | TomlVal.str s => some (kv.1, s)
        | _ => none)
  | _ => none

/-- Serde deserialization of `Metadata`: requires a table with a `commands`
field holding a string map; unknown fields are ignored (serde default). -/
def deserMetadata : TomlVal → Option Metadata
  | TomlVal.table kvs =>
      match kvs.lookup "commands" with
      | some v => (deserCommands v).map (fun cs => { commands := cs })
      | none => none
  | _ => none

/-- Serde deserialization of `WithMetadata`: requires a table with a
`metadata` field. -/
def deserWithMetadata : TomlVal → Option WithMetadata
  | TomlVal.table kvs =>
      match kvs.lookup "metadata" with
      | some v => (deserMetadata v).map (fun m => { metadata := m })
      | none => none
  | _ => none

/-- Serde deserialization of an `Option<A>` struct field: an absent key is
`None`; a present key must deserialize, else the whole parse fails. -/
def deserOptField {α : Type} (deser : TomlVal → Option α)
    (kvs : List (String × TomlVal)) (key : String) : Option (Option α) :=
  match kvs.lookup key with
  | none => some none
  | some v => (deser v).map some

/-- Serde deserialization of `Cargotoml` from the top-level TOML table:
both optional fields must deserialize; unknown top-level keys are ignored. -/
def deserCargotoml (kvs : List (String × TomlVal)) : Option Cargotoml :=
  match deserOptField deserWithMetadata kvs "package",
        deserOptField deserWithMetadata kvs "workspace" with
  | some p, some w => some { package := p, workspace := w }
  | _, _ => none

/-- `get_commands_from_str` (src/main.rs:122-137). The argument is the
outcome of the TOML text parse (`none` = syntactically invalid text); a
successful parse is then deserialized as `Cargotoml`, exactly as
`toml::from_str` does both steps. Any failure there, and the absence of both
scopes, yield the error strings used in the source. The Rust code extends an
empty `HashMap` with the chosen scope's commands, which is that map itself. -/
def get_commands_from_str (doc : Option (List (String × TomlVal))) :
    Except String (List (String × String)) :=
  match doc.bind (fun kvs => deserCargotoml kvs) with
  | none => Except.error "Could not find commands in Cargo.toml"
  | some cargo_toml =>
    match cargo_toml.package with
    | some package => Except.ok package.metadata.commands
    | none =>
      match cargo_toml.workspace with
      | some workspace => Except.ok workspace.metadata.commands
      | none => Except.error "Could not find commands in Cargo.toml"

/-- The `for name in names` loop of `get_commands` (src/main.rs:107-117):
for each candidate name in order, look it up; if the candidate is the
requested command and absent, fail; if present, push `(name, value)`. -/
def resolve_loop (tbl : List (String × String)) (command : String) :
    List String → Except String (List (String × String))
  | [] => Except.ok []
  | name :: names =>
    let command_to_run := tbl.lookup name
    if name == command && command_to_run.isNone then
      Except.error ("Command \"" ++ command ++ "\" not found in Cargo.toml")
    else
      match command_to_run with
      | some v => (resolve_loop tbl command names).map (fun cs => (name, v) :: cs)
      | none => resolve_loop tbl command names

/-- `get_commands` (src/main.rs:90-120), with the file already read and the
parse outcome passed in (file I/O is external). The candidate names are
`pre<command>`, `<command>`, `post<command>` in that fixed order. -/
def get_commands (doc : Option (List (String × TomlVal))) (command : String) :
    Except String (List (String × String)) :=
  match get_commands_from_str doc with
  | Except.error e => Except.error e
  | Except.ok cargo_commands =>
      resolve_loop cargo_commands command
        ["pre" ++ command, command, "post" ++ command]

/-- The literal line built by `execute_command` (src/main.rs:75):
`format!("{} {}", command, rest.join(" "))`. -/
def command_line (command : String) (rest : List String) : String :=
  command ++ " " ++ String.intercalate " " rest

/-- `execute_command` (src/main.rs:71-79): returns the echoed line
(`println!("> {}", command)`) and the exit status. An `Err` from
`sh.join()` (I/O failure launching the subprocess) is mapped by
`unwrap_or(ExitStatus::Exited(0))` to `Exited 0`. -/
def execute_command (command : String) (rest : List String)
    (joinResult : Option ExitStatus) : String × ExitStatus :=
  ("> " ++ command_line command rest, joinResult.getD (ExitStatus.Exited 0))

/-- The `exit_code as i32` cast in src/main.rs:64: a `u32` reinterpreted as
a two's-complement `i32`. -/
def u32_as_i32 (n : Nat) : Int :=
  if n % 4294967296 < 2147483648 then ((n % 4294967296 : Nat) : Int)
  else ((n % 4294967296 : Nat) : Int) - 4294967296

/-- The `for (index, command) in commands.iter().enumerate()` loop of `main`
(src/main.rs:51-68), returning the printed lines and the process exit code.
On success it checks `index == commands.len()` (never true for an enumerate
index, so the loop just continues; falling off the loop ends `main`, exit 0);
on failure it exits with the child's code (`Exited`) or 1 otherwise. -/
def main_loop (world : String → Option ExitStatus) (rest : List String)
    (is_multiple : Bool) (total : Nat) :
    Nat → List (String × String) → List String × Int
  | _, [] => ([], 0)
  | index, nc :: cs =>
    let label : List String := if is_multiple then ["\n[" ++ nc.1 ++ "]"] else []
    let step := execute_command nc.2 rest (world (command_line nc.2 rest))
    if step.2.success then
      if index == total then (label ++ [step.1], 0)
      else
        let r := main_loop world rest is_multiple total (index + 1) cs
        (label ++ [step.1] ++ r.1, r.2)
    else
      match step.2 with
      | ExitStatus.Exited exit_code => (label ++ [step.1], u32_as_i32 exit_code)
      | _ => (label ++ [step.1], 1)

/-- `main` after command resolution (src/main.rs:48-68):
`is_multiple_commands = commands.len() > 1`, then the execution loop. -/
def run_main (commands : List (String × String)) (rest : List String)
    (world : String → Option ExitStatus) : List String × Int :=
  main_loop world rest (decide (commands.length > 1)) commands.length 0 commands

/-- The exit status `execute_command` yields for one (name, command) pair
under `world`. -/
def step_status (world : String → Option ExitStatus) (rest : List String)
    (nc : String × String) : ExitStatus :=
  (execute_command nc.2 rest (world (command_line nc.2 rest))).2

/-- Whether one step counts as a success in `main`'s loop. -/
def step_ok (world : String → Option ExitStatus) (rest : List String)
    (nc : String × String) : Bool :=
  (step_status world rest nc).success

/-- The lines `main` prints for one phase: the `\n[<name>]` label when the
Command Set has more than one entry, then the echoed `> <line>`. -/
def phase_output (is_multiple : Bool) (rest : List String)
    (nc : String × String) : List String :=
  (if is_multiple then ["\n[" ++ nc.1 ++ "]"] else []) ++
    ["> " ++ command_line nc.2 rest]

/-- The prefix of the Command Set that `main`'s loop actually reaches: every
entry while its predecessors succeed, including the first failing entry. -/
def executed_phases (world : String → Option ExitStatus) (rest : List String) :
    List (String × String) → List (String × String)
  | [] => []
  | nc :: cs =>
    if step_ok world rest nc then nc :: executed_phases world rest cs
    else [nc]

/-- The process exit code `main`'s loop produces for a Command Set. -/
def sequence_exit_code (world : String → Option ExitStatus) (rest : List String) :
    List (String × String) → Int
  | [] => 0
  | nc :: cs =>
    if step_ok world rest nc then sequence_exit_code world rest cs
    else
      match step_status world rest nc with
      | ExitStatus.Exited exit_code => u32_as_i32 exit_code
      | _ => 1

/-- The optional singleton entry `resolve_loop` contributes for one
candidate name. -/
def opt_entry (tbl : List (String × String)) (name : String) :
    List (String × String) :=
  match tbl.lookup name with
  | some v => [(name, v)]
  | none => []

/-- A manifest whose `[package.metadata.commands]` table holds `pretest`,
`test` and `posttest`. -/
def docAll : List (String × TomlVal) :=
  [("package", TomlVal.table [("metadata", TomlVal.table [("commands",
    TomlVal.table [("pretest", TomlVal.str "a"), ("test", TomlVal.str "b"),
      ("posttest", TomlVal.str "c")])])])]

/-- A manifest whose `[package.metadata.commands]` table holds only the
hooks `pretest` and `posttest`, not `test` itself. -/
def docHooksOnly : List (String × TomlVal) :=
  [("package", TomlVal.table [("metadata", TomlVal.table [("commands",
    TomlVal.table [("pretest", TomlVal.str "a"),
      ("posttest", TomlVal.str "c")])])])]

/-- A manifest with a `[package]` section that has no `metadata.commands`
table, alongside a well-formed `[workspace.metadata.commands]` table. -/
def docPartialPackage : List (String × TomlVal) :=
  [("package", TomlVal.table [("name", TomlVal.str "x")]),
   ("workspace", TomlVal.table [("metadata", TomlVal.table [("commands",
     TomlVal.table [("test", TomlVal.str "y")])])])]

/-- A manifest with only a `[workspace.metadata.commands]` table. -/
def docWorkspace : List (String × TomlVal) :=
  [("workspace", TomlVal.table [("metadata", TomlVal.table [("commands",
    TomlVal.table [("test", TomlVal.str "w")])])])]

/-- A manifest with well-formed commands tables in both scopes. -/
def docBoth : List (String × TomlVal) :=
  [("package", TomlVal.table [("metadata", TomlVal.table [("commands",
    TomlVal.table [("test", TomlVal.str "p")])])]),
   ("workspace", TomlVal.table [("metadata", TomlVal.table [("commands",
    TomlVal.table [("test", TomlVal.str "w")])])])]

/-- Unfolding of one iteration of `main`'s loop, phrased via `step_ok` and
`step_status`. -/
theorem main_loop_cons (world : String → Option ExitStatus) (rest : List String)
    (m : Bool) (total index : Nat) (nc : String × String)
    (cs : List (String × String)) :
    main_loop world rest m total index (nc :: cs) =
      (let label : List String := if m then ["\n[" ++ nc.1 ++ "]"] else []
       let echo := "> " ++ command_line nc.2 rest
       if step_ok world rest nc then
         if index == total then (label ++ [echo], 0)
         else
           let r := main_loop world rest m total (index + 1) cs
           (label ++ [echo] ++ r.1, r.2)
       else
         match step_status world rest nc with
         | ExitStatus.Exited exit_code => (label ++ [echo], u32_as_i32 exit_code)
         | _ => (label ++ [echo], 1)) := rfl

/-- `main`'s loop, started at any index consistent with the total count,
prints exactly the per-phase blocks of the phases it reaches and produces the
exit code of the first failure (0 if none fails). -/
theorem main_loop_eq (world : String → Option ExitStatus) (rest : List String)
    (m : Bool) (total : Nat) :
    ∀ (cs : List (String × String)) (index : Nat), index + cs.length = total →
      main_loop world rest m total index cs =
        (((executed_phases world rest cs).map (phase_output m rest)).flatten,
          sequence_exit_code world rest cs) := by
  intro cs
  induction cs with
  | nil =>
    intro index h
    simp [main_loop, executed_phases, sequence_exit_code]
  | cons nc cs ih =>
    intro index h
    have hidx : (index == total) = false := by
      simp only [List.length_cons] at h
      simp only [beq_eq_false_iff_ne, ne_eq]
      omega
    rw [main_loop_cons]
    by_cases hs : step_ok world rest nc
    · have ih2 := ih (index + 1) (by simp only [List.length_cons] at h; omega)
      simp [hs, hidx, executed_phases, sequence_exit_code, ih2, phase_output]
    · simp only [Bool.not_eq_true] at hs
      simp only [hs, if_false, Bool.false_eq_true]
      simp [executed_phases, sequence_exit_code, hs, phase_output]
      cases hst : step_status world rest nc <;> simp [hst]

/-- `run_main` in terms of the executed phases and the first-failure exit
code. -/
theorem run_main_eq (cs : List (String × String)) (rest : List String)
    (world : String → Option ExitStatus) :
    run_main cs rest world =
      (((executed_phases world rest cs).map
          (phase_output (decide (cs.length > 1)) rest)).flatten,
        sequence_exit_code world rest cs) :=
  main_loop_eq world rest (decide (cs.length > 1)) cs.length cs 0 (by omega)

/-- `success` holds exactly on `Exited 0`. -/
theorem success_eq_true_iff (s : ExitStatus) :
    s.success = true ↔ s = ExitStatus.Exited 0 := by
  cases s with
  | Exited code => cases code <;> simp [ExitStatus.success]
  | Signaled sig => simp [ExitStatus.success]
  | Other v => simp [ExitStatus.success]
  | Undetermined => simp [ExitStatus.success]

/-- A non-zero normal exit is not a success. -/
theorem success_exited_ne_zero (c : Nat) (hc : c ≠ 0) :
    (ExitStatus.Exited c).success = false := by
  cases c with
  | zero => exact absurd rfl hc
  | succ n => rfl

/-- The `u32 as i32` cast is the identity below `2^31`. -/
theorem u32_as_i32_small (c : Nat) (hc : c < 2147483648) :
    u32_as_i32 c = (c : Int) := by
  have h32 : c % 4294967296 = c := Nat.mod_eq_of_lt (by omega)
  simp [u32_as_i32, h32, hc]

/-- When every step succeeds, every phase is reached. -/
theorem executed_phases_all_ok (world : String → Option ExitStatus)
    (rest : List String) :
    ∀ cs : List (String × String), (∀ nc ∈ cs, step_ok world rest nc = true) →
      executed_phases world rest cs = cs := by
  intro cs h
  induction cs with
  | nil => rfl
  | cons nc cs ih =>
    have hnc := h nc (List.mem_cons_self nc cs)
    simp [executed_phases, hnc, ih (fun p hp => h p (List.mem_cons_of_mem nc hp))]

/-- When every step succeeds, the exit code is 0. -/
theorem sequence_exit_code_all_ok (world : String → Option ExitStatus)
    (rest : List String) :
    ∀ cs : List (String × String), (∀ nc ∈ cs, step_ok world rest nc = true) →
      sequence_exit_code world rest cs = 0 := by
  intro cs h
  induction cs with
  | nil => rfl
  | cons nc cs ih =>
    have hnc := h nc (List.mem_cons_self nc cs)
    simp [sequence_exit_code, hnc, ih (fun p hp => h p (List.mem_cons_of_mem nc hp))]

/-- When a succeeding prefix is followed by a failing step, exactly the
prefix and the failing step are reached. -/
theorem executed_phases_first_fail (world : String → Option ExitStatus)
    (rest : List String) (nc : String × String) (cs₂ : List (String × String)) :
    ∀ cs₁ : List (String × String), (∀ p ∈ cs₁, step_ok world rest p = true) →
      step_ok world rest nc = false →
      executed_phases world rest (cs₁ ++ nc :: cs₂) = cs₁ ++ [nc] := by
  intro cs₁ h1 hnc
  induction cs₁ with
  | nil => simp [executed_phases, hnc]
  | cons p cs₁ ih =>
    have hp := h1 p (List.mem_cons_self p cs₁)
    simp [executed_phases, hp,
      ih (fun q hq => h1 q (List.mem_cons_of_mem p hq))]

/-- When a succeeding prefix is followed by a failing step, the exit code is
that of the failing step. -/
theorem sequence_exit_code_first_fail (world : String → Option ExitStatus)
    (rest : List String) (nc : String × String) (cs₂ : List (String × String)) :
    ∀ cs₁ : List (String × String), (∀ p ∈ cs₁, step_ok world rest p = true) →
      step_ok world rest nc = false →
      sequence_exit_code world rest (cs₁ ++ nc :: cs₂) =
        (match step_status world rest nc with
         | ExitStatus.Exited exit_code => u32_as_i32 exit_code
         | _ => 1) := by
  intro cs₁ h1 hnc
  induction cs₁ with
  | nil => simp [sequence_exit_code, hnc]
  | cons p cs₁ ih =>
    have hp := h1 p (List.mem_cons_self p cs₁)
    simp [sequence_exit_code, hp,
      ih (fun q hq => h1 q (List.mem_cons_of_mem p hq))]

/-- A derived pre-hook name is never the requested name itself. -/
theorem pre_name_ne (s : String) : "pre" ++ s ≠ s := by
  intro h
  have h2 := congrArg String.length h
  rw [String.length_append] at h2
  rw [show String.length "pre" = 3 from rfl] at h2
  omega

/-- A derived post-hook name is never the requested name itself. -/
theorem post_name_ne (s : String) : "post" ++ s ≠ s := by
  intro h
  have h2 := congrArg String.length h
  rw [String.length_append] at h2
  rw [show String.length "post" = 4 from rfl] at h2
  omega

/-- When the requested name is present in the table, the resolution loop
returns the optional pre entry, the mandatory entry, then the optional post
entry. -/
theorem resolve_loop_found (tbl : List (String × String)) (command b : String)
    (hc : tbl.lookup command = some b) :
    resolve_loop tbl command ["pre" ++ command, command, "post" ++ command] =
      Except.ok (opt_entry tbl ("pre" ++ command) ++
        (command, b) :: opt_entry tbl ("post" ++ command)) := by
  have hpre : (("pre" ++ command) == command) = false := by
    simp [pre_name_ne command]
  have hpost : (("post" ++ command) == command) = false := by
    simp [post_name_ne command]
  rcases h1 : tbl.lookup ("pre" ++ command) with _ | a <;>
    rcases h3 : tbl.lookup ("post" ++ command) with _ | c <;>
      simp [resolve_loop, opt_entry, h1, hc, h3, hpre, hpost, Except.map]

/-- When the requested name is absent from the table, the resolution loop
fails with the error naming it, whatever the pre/post entries hold. -/
theorem resolve_loop_missing (tbl : List (String × String)) (command : String)
    (hc : tbl.lookup command = none) :
    resolve_loop tbl command ["pre" ++ command, command, "post" ++ command] =
      Except.error ("Command \"" ++ command ++ "\" not found in Cargo.toml") := by
  have hpre : (("pre" ++ command) == command) = false := by
    simp [pre_name_ne command]
  rcases h1 : tbl.lookup ("pre" ++ command) with _ | a <;>
    simp [resolve_loop, h1, hc, hpre, Except.map]

/-- The optional entry for a candidate name has at most one element. -/
theorem opt_entry_length (tbl : List (String × String)) (name : String) :
    (opt_entry tbl name).length ≤ 1 := by
  unfold opt_entry
  rcases tbl.lookup name with _ | v <;> simp

/-- A member of the optional entry for a candidate name carries that name
and the value the table stores under it. -/
theorem mem_opt_entry (tbl : List (String × String)) (name : String)
    (p : String × String) (hp : p ∈ opt_entry tbl name) :
    p.1 = name ∧ tbl.lookup p.1 = some p.2 := by
  unfold opt_entry at hp
  rcases h : tbl.lookup name with _ | v <;> rw [h] at hp
  · simp at hp
  · simp at hp
    subst hp
    exact ⟨rfl, h⟩

/-- C1: for a manifest whose commands table contains `pre<name>`, `<name>`
and `post<name>`, resolving `<name>` yields exactly those three pairs in the
fixed order pre, main, post; and in general a successful resolution omits
the absent candidates, so it has between 1 and 3 entries. -/
theorem get_commands_pre_main_post :
    (∀ (doc : Option (List (String × TomlVal))) (tbl : List (String × String))
        (command a b c : String),
      get_commands_from_str doc = Except.ok tbl →
      tbl.lookup ("pre" ++ command) = some a →
      tbl.lookup command = some b →
      tbl.lookup ("post" ++ command) = some c →
      get_commands doc command =
        Except.ok [("pre" ++ command, a), (command, b), ("post" ++ command, c)])
    ∧ (∀ (doc : Option (List (String × TomlVal))) (command : String)
        (res : List (String × String)),
      get_commands doc command = Except.ok res →
      1 ≤ res.length ∧ res.length ≤ 3) := by
  constructor
  · intro doc tbl command a b c hdoc h1 h2 h3
    simp [get_commands, hdoc, resolve_loop_found tbl command b h2, opt_entry, h1, h3]
  · intro doc command res hres
    unfold get_commands at hres
    rcases hfs : get_commands_from_str doc with e | tbl <;> rw [hfs] at hres
    · simp at hres
    · replace hres : resolve_loop tbl command
          ["pre" ++ command, command, "post" ++ command] = Except.ok res := hres
      rcases hc : tbl.lookup command with _ | b
      · rw [resolve_loop_missing tbl command hc] at hres
        simp at hres
      · rw [resolve_loop_found tbl command b hc] at hres
        simp only [Except.ok.injEq] at hres
        subst hres
        have hl1 := opt_entry_length tbl ("pre" ++ command)
        have hl2 := opt_entry_length tbl ("post" ++ command)
        simp only [List.length_append, List.length_cons]
        omega

/-- C1 witness: a package commands table with pretest, test and posttest
resolves "test" to the three entries in order. -/
theorem get_commands_pre_main_post_witness :
    get_commands (some docAll) "test" =
      Except.ok [("pretest", "a"), ("test", "b"), ("posttest", "c")] :=
  get_commands_pre_main_post.1 (some docAll)
    [("pretest", "a"), ("test", "b"), ("posttest", "c")] "test" "a" "b" "c"
    rfl rfl rfl rfl

/-- C2: when the extracted commands table has no entry for the requested
name, resolution fails with the error naming that command, even when
`pre<command>` or `post<command>` entries exist: the result is this error
for every table with no direct entry, whatever the hook entries hold. -/
theorem get_commands_missing_is_error :
    ∀ (doc : Option (List (String × TomlVal))) (tbl : List (String × String))
      (command : String),
      get_commands_from_str doc = Except.ok tbl →
      tbl.lookup command = none →
      get_commands doc command =
        Except.error ("Command \"" ++ command ++ "\" not found in Cargo.toml") := by
  intro doc tbl command hdoc hc
  simp [get_commands, hdoc, resolve_loop_missing tbl command hc]

/-- C2 witness: a table holding only the pretest and posttest hooks still
fails to resolve "test". -/
theorem get_commands_missing_is_error_witness :
    get_commands (some docHooksOnly) "test" =
      Except.error "Command \"test\" not found in Cargo.toml" :=
  get_commands_missing_is_error (some docHooksOnly)
    [("pretest", "a"), ("posttest", "c")] "test" rfl rfl

/-- C10: every successful resolution is non-empty, contains an entry named
exactly the requested command, names only the three candidates, and takes
every command string verbatim from the extracted commands table. -/
theorem resolution_invariant :
    ∀ (doc : Option (List (String × TomlVal))) (command : String)
      (res : List (String × String)),
      get_commands doc command = Except.ok res →
      ∃ tbl, get_commands_from_str doc = Except.ok tbl ∧
        res ≠ [] ∧
        (∃ v, (command, v) ∈ res ∧ tbl.lookup command = some v) ∧
        (∀ p ∈ res,
          (p.1 = "pre" ++ command ∨ p.1 = command ∨ p.1 = "post" ++ command) ∧
          tbl.lookup p.1 = some p.2) := by
  intro doc command res hres
  unfold get_commands at hres
  rcases hfs : get_commands_from_str doc with e | tbl <;> rw [hfs] at hres
  · simp at hres
  · replace hres : resolve_loop tbl command
        ["pre" ++ command, command, "post" ++ command] = Except.ok res := hres
    rcases hc : tbl.lookup command with _ | b
    · rw [resolve_loop_missing tbl command hc] at hres
      simp at hres
    · rw [resolve_loop_found tbl command b hc] at hres
      simp only [Except.ok.injEq] at hres
      subst hres
      refine ⟨tbl, rfl, by simp, ⟨b, ?_, hc⟩, ?_⟩
      · exact List.mem_append_right _ (List.mem_cons_self _ _)
      · intro p hp
        rcases List.mem_append.mp hp with hpre | hrest
        · have h := mem_opt_entry tbl ("pre" ++ command) p hpre
          exact ⟨Or.inl h.1, h.2⟩
        · rcases List.mem_cons.mp hrest with hmain | hpost
          · subst hmain
            exact ⟨Or.inr (Or.inl rfl), hc⟩
          · have h := mem_opt_entry tbl ("post" ++ command) p hpost
            exact ⟨Or.inr (Or.inr h.1), h.2⟩

/-- C10 witness: the invariant instantiated at the pretest/test/posttest
manifest. -/
theorem resolution_invariant_witness :
    ∃ tbl, get_commands_from_str (some docAll) = Except.ok tbl ∧
      ([("pretest", "a"), ("test", "b"), ("posttest", "c")] :
          List (String × String)) ≠ [] ∧
      (∃ v, (("test" : String), v) ∈
          ([("pretest", "a"), ("test", "b"), ("posttest", "c")] :
            List (String × String)) ∧
        tbl.lookup "test" = some v) ∧
      (∀ p ∈ ([("pretest", "a"), ("test", "b"), ("posttest", "c")] :
          List (String × String)),
        (p.1 = "pre" ++ "test" ∨ p.1 = "test" ∨ p.1 = "post" ++ "test") ∧
        tbl.lookup p.1 = some p.2) :=
  resolution_invariant (some docAll) "test"
    [("pretest", "a"), ("test", "b"), ("posttest", "c")] rfl

/-- C7 counterexample: a manifest whose `[package]` section has no commands
table but whose `[workspace.metadata.commands]` table is well formed does
NOT resolve from the workspace table: deserializing `Cargotoml` fails on the
partial package section, so extraction errors out instead of returning the
workspace entry `("test", "y")`. -/
theorem package_without_commands_counterexample :
    get_commands_from_str (some docPartialPackage) =
      Except.error "Could not find commands in Cargo.toml" ∧
    get_commands (some docPartialPackage) "test" =
      Except.error "Could not find commands in Cargo.toml" :=
  ⟨rfl, rfl⟩

/-- C7 amended: when no `package` key is present at all and the workspace
section deserializes, the workspace commands table is used exactly as a
package table would be; when both sections deserialize, package wins; but a
`package` key whose value does not deserialize (e.g. package content with no
commands table) makes the whole extraction fail. -/
theorem scope_priority :
    ∀ doc : List (String × TomlVal),
      (doc.lookup "package" = none →
        ∀ (wv : TomlVal) (w : WithMetadata),
          doc.lookup "workspace" = some wv →
          deserWithMetadata wv = some w →
          get_commands_from_str (some doc) = Except.ok w.metadata.commands)
      ∧ (∀ (pv : TomlVal) (p : WithMetadata),
          doc.lookup "package" = some pv →
          deserWithMetadata pv = some p →
          (doc.lookup "workspace" = none ∨
            ∃ (wv : TomlVal) (w : WithMetadata),
              doc.lookup "workspace" = some wv ∧ deserWithMetadata wv = some w) →
          get_commands_from_str (some doc) = Except.ok p.metadata.commands)
      ∧ (∀ pv : TomlVal,
          doc.lookup "package" = some pv →
          deserWithMetadata pv = none →
          get_commands_from_str (some doc) =
            Except.error "Could not find commands in Cargo.toml") := by
  intro doc
  refine ⟨?_, ?_, ?_⟩
  · intro h1 wv w h2 h3
    simp [get_commands_from_str, deserCargotoml, deserOptField, h1, h2, h3]
  · intro pv p h1 h2 hw
    rcases hw with hwn | ⟨wv, w, hwv, hwd⟩
    · simp [get_commands_from_str, deserCargotoml, deserOptField, h1, h2, hwn]
    · simp [get_commands_from_str, deserCargotoml, deserOptField, h1, h2, hwv, hwd]
  · intro pv h1 h2
    simp [get_commands_from_str, deserCargotoml, deserOptField, h1, h2]

/-- C7 witness: the three scope cases at concrete manifests — workspace
only, both scopes (package wins), and a partial package section. -/
theorem scope_priority_witness :
    get_commands_from_str (some docWorkspace) = Except.ok [("test", "w")] ∧
    get_commands_from_str (some docBoth) = Except.ok [("test", "p")] ∧
    get_commands_from_str (some docPartialPackage) =
      Except.error "Could not find commands in Cargo.toml" :=
  ⟨(scope_priority docWorkspace).1 rfl
      (TomlVal.table [("metadata", TomlVal.table [("commands",
        TomlVal.table [("test", TomlVal.str "w")])])])
      ⟨⟨[("test", "w")]⟩⟩ rfl rfl,
   (scope_priority docBoth).2.1
      (TomlVal.table [("metadata", TomlVal.table [("commands",
        TomlVal.table [("test", TomlVal.str "p")])])])
      ⟨⟨[("test", "p")]⟩⟩ rfl rfl
      (Or.inr ⟨TomlVal.table [("metadata", TomlVal.table [("commands",
          TomlVal.table [("test", TomlVal.str "w")])])],
        ⟨⟨[("test", "w")]⟩⟩, rfl, rfl⟩),
   (scope_priority docPartialPackage).2.2
      (TomlVal.table [("name", TomlVal.str "x")]) rfl rfl⟩

/-- C8 counterexample: syntactically invalid manifest text and a valid
manifest with neither commands table are NOT reported distinguishably - both
produce the identical error value. -/
theorem parse_schema_same_error_counterexample :
    get_commands_from_str none =
      Except.error "Could not find commands in Cargo.toml" ∧
    get_commands_from_str (some []) =
      Except.error "Could not find commands in Cargo.toml" ∧
    get_commands_from_str none = get_commands_from_str (some []) :=
  ⟨rfl, rfl, rfl⟩

/-- C8 amended: unparsable text and a parsed manifest with neither a
package- nor a workspace-scope commands table both fail, with the same
single error message, so the two conditions are not distinguishable from
the result. -/
theorem parse_schema_error_message :
    ∀ doc : List (String × TomlVal),
      get_commands_from_str none =
        Except.error "Could not find commands in Cargo.toml" ∧
      (deserCargotoml doc = some { package := none, workspace := none } →
        get_commands_from_str (some doc) =
          Except.error "Could not find commands in Cargo.toml") := by
  intro doc
  refine ⟨rfl, ?_⟩
  intro h
  simp [get_commands_from_str, h]

/-- C8 witness: the amended statement at the empty (valid, table-free)
manifest. -/
theorem parse_schema_error_message_witness :
    get_commands_from_str none =
      Except.error "Could not find commands in Cargo.toml" ∧
    get_commands_from_str (some []) =
      Except.error "Could not find commands in Cargo.toml" :=
  ⟨(parse_schema_error_message []).1, (parse_schema_error_message []).2 rfl⟩

/-- C3: the tool's exit code is 0 when every command in the Command Set
succeeds; it is the child's own exit code when a command (after a succeeding
prefix) exits with a non-zero code (any value an OS wait status can carry,
in particular 0 < c < 2^31); and it is the fixed generic code 1 when the
child was killed by a signal instead of exiting. -/
theorem exit_code_propagation :
    (∀ (cs : List (String × String)) (rest : List String)
        (world : String → Option ExitStatus),
      (∀ nc ∈ cs, step_ok world rest nc = true) →
      (run_main cs rest world).2 = 0)
    ∧ (∀ (cs₁ : List (String × String)) (nc : String × String)
        (cs₂ : List (String × String)) (rest : List String)
        (world : String → Option ExitStatus) (c : Nat),
      (∀ p ∈ cs₁, step_ok world rest p = true) →
      world (command_line nc.2 rest) = some (ExitStatus.Exited c) →
      0 < c → c < 2147483648 →
      (run_main (cs₁ ++ nc :: cs₂) rest world).2 = (c : Int))
    ∧ (∀ (cs₁ : List (String × String)) (nc : String × String)
        (cs₂ : List (String × String)) (rest : List String)
        (world : String → Option ExitStatus) (sig : Nat),
      (∀ p ∈ cs₁, step_ok world rest p = true) →
      world (command_line nc.2 rest) = some (ExitStatus.Signaled sig) →
      (run_main (cs₁ ++ nc :: cs₂) rest world).2 = 1) := by
  refine ⟨?_, ?_, ?_⟩
  · intro cs rest world h
    rw [run_main_eq]
    exact sequence_exit_code_all_ok world rest cs h
  · intro cs₁ nc cs₂ rest world c h1 hw hc hlt
    have hst : step_status world rest nc = ExitStatus.Exited c := by
      simp [step_status, execute_command, hw]
    have hnotok : step_ok world rest nc = false := by
      simp [step_ok, hst, success_exited_ne_zero c (by omega)]
    rw [run_main_eq]
    have h := sequence_exit_code_first_fail world rest nc cs₂ cs₁ h1 hnotok
    rw [hst] at h
    simpa [u32_as_i32_small c hlt] using h
  · intro cs₁ nc cs₂ rest world sig h1 hw
    have hst : step_status world rest nc = ExitStatus.Signaled sig := by
      simp [step_status, execute_command, hw]
    have hnotok : step_ok world rest nc = false := by
      simp [step_ok, hst, ExitStatus.success]
    rw [run_main_eq]
    have h := sequence_exit_code_first_fail world rest nc cs₂ cs₁ h1 hnotok
    rw [hst] at h
    simpa using h

/-- C3 witness: a single command that exits 0 gives exit code 0, one that
exits 3 gives exit code 3, and one killed by signal 9 gives exit code 1. -/
theorem exit_code_propagation_witness :
    (run_main [("test", "t")] [] (fun _ => some (ExitStatus.Exited 0))).2 = 0 ∧
    (run_main [("test", "t")] [] (fun _ => some (ExitStatus.Exited 3))).2 = 3 ∧
    (run_main [("test", "t")] [] (fun _ => some (ExitStatus.Signaled 9))).2 = 1 :=
  ⟨exit_code_propagation.1 [("test", "t")] [] _ (by decide),
   exit_code_propagation.2.1 [] ("test", "t") [] [] _ 3 (by simp) rfl
     (by omega) (by omega),
   exit_code_propagation.2.2 [] ("test", "t") [] [] _ 9 (by simp) rfl⟩

/-- C4: once a command fails after a succeeding prefix, exactly the prefix
and the failing entry are reached, and the printed output consists of the
phase blocks of the prefix and the failing entry only — nothing of any
later entry is executed or printed. -/
theorem short_circuit_on_failure :
    ∀ (cs₁ : List (String × String)) (nc : String × String)
      (cs₂ : List (String × String)) (rest : List String)
      (world : String → Option ExitStatus),
      (∀ p ∈ cs₁, step_ok world rest p = true) →
      step_ok world rest nc = false →
      executed_phases world rest (cs₁ ++ nc :: cs₂) = cs₁ ++ [nc] ∧
      (run_main (cs₁ ++ nc :: cs₂) rest world).1 =
        ((cs₁ ++ [nc]).map
          (phase_output (decide ((cs₁ ++ nc :: cs₂).length > 1)) rest)).flatten := by
  intro cs₁ nc cs₂ rest world h1 hnc
  have he := executed_phases_first_fail world rest nc cs₂ cs₁ h1 hnc
  refine ⟨he, ?_⟩
  rw [run_main_eq, he]

/-- C4 witness: with pretest succeeding and test failing, the posttest entry
contributes nothing to the output. -/
theorem short_circuit_on_failure_witness :
    executed_phases
        (fun line => if line = "b " then some (ExitStatus.Exited 3)
          else some (ExitStatus.Exited 0)) []
        ([("pretest", "a")] ++ ("test", "b") :: [("posttest", "c")]) =
      [("pretest", "a")] ++ [("test", "b")] ∧
    (run_main ([("pretest", "a")] ++ ("test", "b") :: [("posttest", "c")]) []
        (fun line => if line = "b " then some (ExitStatus.Exited 3)
          else some (ExitStatus.Exited 0))).1 =
      (([("pretest", "a")] ++ [("test", "b")]).map
        (phase_output
          (decide (([("pretest", "a")] ++ ("test", "b") :: [("posttest", "c")]).length > 1))
          [])).flatten :=
  short_circuit_on_failure [("pretest", "a")] ("test", "b") [("posttest", "c")]
    [] _ (by decide) (by decide)

/-- C9: the printed output is exactly one block per reached phase, where a
block carries the `\n[<name>]` label precisely when the Command Set has more
than one entry and always carries the echoed `> <command line>`. -/
theorem label_iff_multiple :
    (∀ (cs : List (String × String)) (rest : List String)
        (world : String → Option ExitStatus),
      (run_main cs rest world).1 =
        ((executed_phases world rest cs).map
          (phase_output (decide (cs.length > 1)) rest)).flatten)
    ∧ (∀ (rest : List String) (nc : String × String),
      phase_output true rest nc =
        ["\n[" ++ nc.1 ++ "]", "> " ++ command_line nc.2 rest])
    ∧ (∀ (rest : List String) (nc : String × String),
      phase_output false rest nc = ["> " ++ command_line nc.2 rest]) := by
  refine ⟨?_, ?_, ?_⟩
  · intro cs rest world
    rw [run_main_eq]
  · intro rest nc
    rfl
  · intro rest nc
    rfl

/-- C5 counterexample: when launching the first of two commands fails with
an I/O error (join result `none`), `execute_command` reports `Exited 0`,
which counts as a success, so the sequence does NOT stop at that step: both
phases are printed and the process exits 0. -/
theorem spawn_failure_counterexample :
    (execute_command "a" [] none).2 = ExitStatus.Exited 0 ∧
    ((execute_command "a" [] none).2).success = true ∧
    (run_main [("pretest", "a"), ("test", "b")] [] (fun _ => none)).2 = 0 ∧
    (run_main [("pretest", "a"), ("test", "b")] [] (fun _ => none)).1 =
      ["\n[pretest]", "> a ", "\n[test]", "> b "] := by
  refine ⟨rfl, rfl, ?_, ?_⟩ <;> decide

/-- C5 amended: an I/O failure launching the subprocess is mapped to
`Exited 0` and therefore counts as a SUCCESS of that step: the sequence
continues past it (every step is reached) and the process exits 0. -/
theorem spawn_failure_is_success :
    (∀ (cmd : String) (rest : List String),
      (execute_command cmd rest none).2 = ExitStatus.Exited 0)
    ∧ (∀ (cs : List (String × String)) (rest : List String),
      (run_main cs rest (fun _ => none)).2 = 0 ∧
      executed_phases (fun _ => none) rest cs = cs) := by
  constructor
  · intro cmd rest
    rfl
  · intro cs rest
    have hok : ∀ nc ∈ cs, step_ok (fun _ => none) rest nc = true := by
      intro nc _
      rfl
    constructor
    · rw [run_main_eq]
      exact sequence_exit_code_all_ok _ rest cs hok
    · exact executed_phases_all_ok _ rest cs hok

/-- C6 counterexample: with no extra arguments the echoed line is not
exactly the prompt followed by the command string: it carries a trailing
space, `"> echo hello "` rather than `"> echo hello"`. -/
theorem echo_trailing_space_counterexample :
    (run_main [("test", "echo hello")] [] (fun _ => some (ExitStatus.Exited 0))).1 =
      ["> echo hello "] ∧
    ("> echo hello " : String) ≠ "> echo hello" := by
  constructor <;> decide

/-- C6 amended: the echoed line is the command string, one space, then the
extra arguments joined by single spaces (no re-escaping of any kind); when
there are no extra arguments it is the prompt, the command string and a
trailing space. -/
theorem echo_line_shape :
    (∀ (cmd : String) (rest : List String) (j : Option ExitStatus),
      (execute_command cmd rest j).1 =
        "> " ++ cmd ++ " " ++ String.intercalate " " rest)
    ∧ (∀ (name cmd : String) (world : String → Option ExitStatus),
      (run_main [(name, cmd)] [] world).1 = ["> " ++ cmd ++ " "]) := by
  constructor
  · intro cmd rest j
    simp [execute_command, command_line, String.append_assoc]
  · intro name cmd world
    rw [run_main_eq]
    have hexec : executed_phases world [] [(name, cmd)] = [(name, cmd)] := by
      by_cases h : step_ok world [] (name, cmd) <;>
        simp [executed_phases, h]
    rw [hexec]
    have hline : command_line cmd [] = cmd ++ " " := by
      simp [command_line, String.intercalate, String.append_empty]
    simp [phase_output, hline, String.append_assoc]
